import Mathlib

/-!
Verification of the NoteLink route-registration core: the schema conversion
engine (`schema.utils`), the response documentation builder (`response.utils`)
and the route compiler / handler wrapper (`route-handler`), shallowly embedded
in Lean.  JavaScript objects are modelled as ordered association lists with
last-write-wins assignment, mirroring `Record<string, _>` semantics, and
TypeBox validation schemas are modelled as an inductive `TBox` whose values
are exactly those recognised by the source's `isTypeBoxSchema` capability
probe (objects carrying a callable `Check`, per the probe's documentation).
-/

namespace NoteLink

/-- TypeBox schemas as produced by the elysia `t` collaborator; each leaf
carries the optional `description` metadata the source attaches.  `tObj` is
`t.Object(properties, {description})`; `t.Object({})` is `tObj [] none`.
`tArr` is `t.Array(t.Any(), {description})`. -/
inductive TBox where
  | tStr (d : Option String)
  | tNum (d : Option String)
  | tBool (d : Option String)
  | tArr (d : Option String)
  | tAnyT (d : Option String)
  | tOpt (s : TBox)
  | tObj (fields : List (String × TBox)) (d : Option String)

/-- JavaScript runtime values as far as the schema engine inspects them.
`tbox` embeds a compiled/TypeBox validation schema: the source's
`isTypeBoxSchema` probe (`typeof value.Check === "function"`) is documented
in the repository to hold exactly for such schema objects. `obj` models a
plain object via its `Object.entries` list (keys are unique in a JS object,
but nothing here depends on that). -/
inductive JSVal where
  | tbox (s : TBox)
  | str (s : String)
  | num (n : Int)
  | bool (b : Bool)
  | vnull
  | undef
  | arr (xs : List JSVal)
  | obj (fields : List (String × JSVal))

/-- JS `s.startsWith(pre)` (computable model of `String.startsWith`). -/
def jsStartsWith (s pre : String) : Bool :=
  pre.data.isPrefixOf s.data

/-- JS `s.toLowerCase()` (computable model of `String.toLower`). -/
def jsToLower (s : String) : String :=
  ⟨s.data.map Char.toLower⟩

/-- JavaScript truthiness for the values of `JSVal`. -/
def jsTruthy : JSVal → Bool
  | .tbox _ => true
  | .str s => !s.isEmpty
  | .num n => n != 0
  | .bool b => b
  | .vnull => false
  | .undef => false
  | .arr _ => true
  | .obj _ => true

/-- Property read on a JS record (`r[k]`); keys of a JS object are unique,
so the first match is the value. -/
def recGet : List (String × α) → String → Option α
  | [], _ => none
  | e :: rest, k => if e.1 = k then some e.2 else recGet rest k

/-- Property assignment on a JS record (`r[k] = v`): an existing key keeps
its position and is overwritten, a new key is appended. -/
def recordSet (r : List (String × α)) (k : String) (v : α) : List (String × α) :=
  if r.any (fun e => e.1 = k) then
    r.map (fun e => if e.1 = k then (k, v) else e)
  else
    r ++ [(k, v)]

/-- A `for (const [k, v] of Object.entries(e))` loop whose body performs
`target[k] = f(k, v)`, starting from record `acc`. -/
def foldRecord (entries : List (String × β)) (acc : List (String × β)) :
    List (String × β) :=
  entries.foldl (fun a e => recordSet a e.1 e.2) acc

/-- The value the key `k` holds after writing `entries` in order into an
empty record: the last entry with key `k` wins. -/
def lastAssoc (entries : List (String × β)) (k : String) : Option β :=
  entries.foldl (fun r e => if e.1 = k then some e.2 else r) none

/-- Whether a TypeBox schema is an `t.Optional(...)` wrapper. -/
def isOptionalTB : TBox → Bool
  | .tOpt _ => true
  | _ => false

/-- The property list of a `t.Object` schema (empty for non-objects). -/
def tObjFields : TBox → List (String × TBox)
  | .tObj fs _ => fs
  | _ => []

mutual
/-- Validation semantics of the TypeBox collaborator, per its documented
behaviour: leaves accept exactly the matching primitive kind, `t.Any`
accepts everything, `t.Object({})` (and any object schema) requires an
object value whose declared fields are present and valid, absence being
tolerated exactly for `t.Optional` fields. -/
def tbCheck : TBox → JSVal → Bool
  | .tOpt s, v => tbCheck s v
  | .tStr _, .str _ => true
  | .tNum _, .num _ => true
  | .tBool _, .bool _ => true
  | .tArr _, .arr _ => true
  | .tAnyT _, _ => true
  | .tObj fields _, .obj kvs => tbCheckFields fields kvs
  | _, _ => false

/-- Field-wise object validation: each declared field must be present and
valid, or absent and declared `t.Optional`. -/
def tbCheckFields : List (String × TBox) → List (String × JSVal) → Bool
  | [], _ => true
  | (k, s) :: rest, kvs =>
    (match recGet kvs k with
     | some v => tbCheck s v
     | none => isOptionalTB s) && tbCheckFields rest kvs
end

/-- `isTypeBoxSchema` from `schema.utils`: `value && typeof value === "object"
&& typeof value.Check === "function"`.  In this embedding the values carrying
a callable `Check` are exactly the embedded TypeBox schemas. -/
def isTypeBoxSchema : JSVal → Bool
  | .tbox _ => true
  | _ => false

/-- The TypeBox schema carried by a value satisfying `isTypeBoxSchema`
(arbitrary elsewhere; every caller guards with the probe first). -/
def asTBox : JSVal → TBox
  | .tbox s => s
  | _ => .tAnyT none

/-- The `switch (type.toLowerCase())` of `convertSchemaToTypeBox`: string
type tokens to TypeBox leaves, unrecognised tokens defaulting to
`t.String()`. -/
def ctbToken (type : String) : TBox :=
  match jsToLower type with
  | "number" => .tNum none
  | "string" => .tStr none
  | "boolean" => .tBool none
  | "array" => .tArr none
  | "object" => .tObj [] none
  | _ => .tStr none

/-- The output field name of a schema-definition key: the `"!"` marker, when
present, is stripped before the key is used
(`isRequired ? key.slice(1) : key`). -/
def cleanKey (key : String) : String :=
  if jsStartsWith key "!" then key.drop 1 else key

mutual
/-- `convertSchemaToTypeBox` from `schema.utils`: pass through TypeBox
schemas unchanged; convert plain (non-array, truthy) objects field by field,
stripping the `"!"` required-marker from keys and wrapping unmarked fields
in `t.Optional`; return `t.Any()` for everything else. -/
def convertSchemaToTypeBox : JSVal → TBox
  | .tbox s => s
  | .obj fields => .tObj (ctbLoop fields []) none
  | _ => .tAnyT none
termination_by x => 2 * sizeOf x + 1

/-- The body of one iteration of `convertSchemaToTypeBox`'s loop: the field
value's converted schema (field values that are non-array objects — plain
objects, TypeBox schemas, `null` — recurse; string values go through the
token switch; anything else becomes `t.Any()`), wrapped in `t.Optional`
unless the key carries the `"!"` marker. -/
def ctbVal (key : String) (v : JSVal) : TBox :=
  let typeSchema :=
    match v with
    | .obj fs => convertSchemaToTypeBox (.obj fs)
    | .tbox s => convertSchemaToTypeBox (.tbox s)
    | .vnull => convertSchemaToTypeBox .vnull
    | .str s => ctbToken s
    | _ => .tAnyT none
  if jsStartsWith key "!" then typeSchema else .tOpt typeSchema
termination_by 2 * sizeOf v + 2

/-- The `for (const [key, type] of Object.entries(schema))` loop of
`convertSchemaToTypeBox`, accumulating the `properties` record. -/
def ctbLoop : List (String × JSVal) → List (String × TBox) → List (String × TBox)
  | [], properties => properties
  | (key, v) :: rest, properties =>
    ctbLoop rest (recordSet properties (cleanKey key) (ctbVal key v))
termination_by l _ => 2 * sizeOf l
end

/-- A `SchemaDefinition` value (spec §3): each field is either a type-token
string or a nested `SchemaDefinition`. -/
inductive SDVal where
  | token (s : String)
  | nested (fields : List (String × SDVal))

/-- An OpenAPI property fragment as produced by the documentation path:
primitive fragments, `{type:"array", items:{type:"object"}}`,
`{type:"object"}`, or a nested object fragment with properties and an
optional `required` list. -/
inductive OProp where
  | onumber
  | ostring
  | oboolean
  | oarray
  | oobject
  | oobjectWith (properties : List (String × OProp)) (required : Option (List String))

/-- The top-level output shape of `convertSchemaDefinitionToOpenAPI`:
`{type:"object", properties, required?}` (the `required` key present only
when attached). -/
structure OSchema where
  properties : List (String × OProp)
  required : Option (List String)

/-- The token switch of `convertSchemaDefinitionToOpenAPI`: unrecognised
tokens default to `{type:"string"}`. -/
def docToken (type : String) : OProp :=
  match jsToLower type with
  | "number" => .onumber
  | "string" => .ostring
  | "boolean" => .oboolean
  | "array" => .oarray
  | "object" => .oobject
  | _ => .ostring

mutual
/-- `convertSchemaDefinitionToOpenAPI` from `schema.utils`: converts a
compact `SchemaDefinition` into an OpenAPI object fragment, collecting the
`"!"`-marked keys (stripped) into a `required` list attached only when
non-empty. -/
def convertSchemaDefinitionToOpenAPI (schemaDefinition : List (String × SDVal)) :
    OSchema :=
  let r := sdLoop schemaDefinition [] []
  ⟨r.1, if r.2.length > 0 then some r.2 else none⟩
termination_by 2 * sizeOf schemaDefinition + 1

/-- The property fragment stored for one field value of the documentation
path: a nested value recurses (the source calls the conversion twice on it;
being pure, one shared call is equivalent) and its `required` list is
re-attached only when non-empty; a token value goes through the switch. -/
def sdProp : SDVal → OProp
  | .nested fs =>
    let nestedResult := convertSchemaDefinitionToOpenAPI fs
    .oobjectWith nestedResult.properties
      (match nestedResult.required with
       | some r => if r.length > 0 then some r else none
       | none => none)
  | .token s => docToken s
termination_by v => 2 * sizeOf v

/-- The `for (const [key, type] of Object.entries(schemaDefinition))` loop,
accumulating the `properties` record and the `required` list (the stripped
key is pushed onto `required` exactly when the raw key is marked). -/
def sdLoop : List (String × SDVal) → List (String × OProp) → List String →
    List (String × OProp) × List String
  | [], properties, required => (properties, required)
  | (key, v) :: rest, properties, required =>
    sdLoop rest (recordSet properties (cleanKey key) (sdProp v))
      (if jsStartsWith key "!" then required ++ [cleanKey key] else required)
termination_by l _ _ => 2 * sizeOf l
end

/-- The overall documentation-path output value: a TypeBox schema passed
through, the array fallback, an object fragment with a `properties` key, or
the bare generic `{type:"object"}`. -/
inductive ODoc where
  | otb (s : TBox)
  | oarrOfObj
  | oschema (s : OSchema)
  | ogeneric

/-- The per-value type inference of `convertToOpenAPISchema`'s plain-object
branch (`null`/`undefined` to string, numbers/booleans/arrays/objects to the
matching fragment, everything else to string). -/
def inferOProp : JSVal → OProp
  | .vnull => .ostring
  | .undef => .ostring
  | .num _ => .onumber
  | .bool _ => .oboolean
  | .arr _ => .oarray
  | .obj _ => .oobject
  | .tbox _ => .oobject
  | .str _ => .ostring

/-- `convertToOpenAPISchema` from `schema.utils`: TypeBox schemas pass
through, arrays become `{type:"array", items:{type:"object"}}`, truthy plain
objects have a schema inferred from their values, and anything else falls
back to `{type:"object"}`. -/
def convertToOpenAPISchema : JSVal → ODoc
  | .tbox s => .otb s
  | .arr _ => .oarrOfObj
  | .obj fields =>
    .oschema ⟨foldRecord (fields.map (fun f => (f.1, inferOProp f.2))) [], none⟩
  | _ => .ogeneric

/-- `Parameter` from `parameter.types`: a named, located, typed route
parameter.  `default` is `some v` exactly when the JS `default` property is
defined (`!== undefined`), `v` possibly `null`. -/
structure Parameter where
  name : String
  «in» : String
  type : String
  description : Option String := none
  required : Option Bool := none
  default : Option JSVal := none

/-- JS truthiness of an optional boolean property (absent = `undefined` =
falsy). -/
def jsTruthyOpt : Option Bool → Bool
  | some b => b
  | none => false

/-- The type switch of `buildTypeBoxSchema`, carrying the parameter's
description into the leaf; unknown parameter types map to
`t.Any({description})`. -/
def paramTypeSchema (param : Parameter) : TBox :=
  match param.type with
  | "string" => .tStr param.description
  | "number" => .tNum param.description
  | "boolean" => .tBool param.description
  | "array" => .tArr param.description
  | "object" => .tObj [] param.description
  | _ => .tAnyT param.description

/-- One iteration of `buildTypeBoxSchema`'s `forEach`: the field stored for
a parameter, wrapped in `t.Optional` when `!param.required ||
param.default !== undefined`. -/
def paramField (param : Parameter) : TBox :=
  if !jsTruthyOpt param.required || param.default.isSome then
    .tOpt (paramTypeSchema param)
  else
    paramTypeSchema param

/-- `buildTypeBoxSchema` from `schema.utils`: fold the parameter list into a
`t.Object` properties record keyed by parameter name. -/
def buildTypeBoxSchema (params : List Parameter) : TBox :=
  .tObj (foldRecord (params.map (fun p => (p.name, paramField p))) []) none

/-- `ResponseDefinition` from `response.types`: a description plus an
optional compact schema (`schema?: Record<string, string | object>`). -/
structure ResponseDefinition where
  description : String
  schema : Option (List (String × SDVal)) := none

/-- One value of a route's response table: a plain description string or a
`ResponseDefinition`. -/
inductive ResponseEntry where
  | strE (s : String)
  | defE (d : ResponseDefinition)

/-- The `{schema}` media-type object inside a response's `content`. -/
structure MediaContent where
  schema : ODoc

/-- One produced OpenAPI response entry: `{description, content:
{"application/json": {schema}}}`. -/
structure DocEntry where
  description : String
  content : List (String × MediaContent)

/-- The description a response entry contributes (`response` itself for a
string entry, `response.description` otherwise). -/
def entryDescription : ResponseEntry → String
  | .strE s => s
  | .defE d => d.description

/-- The own schema a response entry contributes (`null` for a string
entry, `response.schema` otherwise). -/
def entrySchema : ResponseEntry → Option (List (String × SDVal))
  | .strE _ => none
  | .defE d => d.schema

/-- The body of `buildOpenAPIResponses`' loop for one status code: extract
description and optional schema from the entry, start from the generic
`{type:"object"}` schema, then prefer the entry's own schema (documentation
path) and otherwise, for a truthy `schemasResponse` and status exactly
`"200"` or `"201"`, the converted fallback. -/
def buildResponseObj (statusCode : String) (response : ResponseEntry)
    (schemasResponse : Option JSVal) : DocEntry :=
  let description := match response with
    | .strE s => s
    | .defE d => d.description
  let schema := match response with
    | .strE _ => none
    | .defE d => d.schema
  let finalSchema : ODoc :=
    match schema with
    | some sd => .oschema (convertSchemaDefinitionToOpenAPI sd)
    | none =>
      match schemasResponse with
      | some sr =>
        if jsTruthy sr then
          if statusCode = "200" || statusCode = "201" then
            convertToOpenAPISchema sr
          else .ogeneric
        else .ogeneric
      | none => .ogeneric
  ⟨description, [("application/json", ⟨finalSchema⟩)]⟩

/-- `buildOpenAPIResponses` from `response.utils`: transform each status
code's entry and store it under that status code. -/
def buildOpenAPIResponses (responses : List (String × ResponseEntry))
    (schemasResponse : Option JSVal) : List (String × DocEntry) :=
  foldRecord
    (responses.map (fun e => (e.1, buildResponseObj e.1 e.2 schemasResponse))) []

/-- The error values a JS handler can throw: an `Error` object carrying a
`message`, or any other value. -/
inductive Thrown where
  | errObj (message : String)
  | nonError (v : JSVal)

/-- Outcome of one invocation of the user-supplied handler. -/
inductive HandlerResult where
  | ret (v : JSVal)
  | thrown (e : Thrown)

/-- Outcome of `await jwt.verify(token)`: a resolved payload (possibly
falsy) or a raised error. -/
inductive VerifyResult where
  | ret (payload : JSVal)
  | thrown

/-- `DocumentedRouteInput` from `route.types`.  The handler is modelled as a
function of the only context field the wrapper writes before invoking it
(`context.user`, the authenticated principal). -/
structure DocumentedRouteInput where
  method : String
  path : String
  description : Option String := none
  summary : Option String := none
  responses : Option (List (String × ResponseEntry)) := none
  handler : Option JSVal → HandlerResult := fun _ => .ret .undef
  params : Option (List Parameter) := none
  schemasRequest : Option JSVal := none
  schemasResponse : Option JSVal := none
  tags : Option (List String) := none
  requiresAuth : Option Bool := none

/-- The `detail` documentation metadata of a compiled route schema. -/
structure RouteDetail where
  summary : String
  description : Option String
  tags : List String
  responses : Option (List (String × DocEntry)) := none

/-- A compiled route schema: documentation `detail` plus the optional
query/path/header/body validation schemas. -/
structure RouteSchema where
  detail : RouteDetail
  query : Option TBox := none
  params : Option TBox := none
  headers : Option TBox := none
  body : Option TBox := none

/-- JS `a || b` for an optional string `a` (absent or empty = falsy). -/
def jsOrString (a : Option String) (b : String) : String :=
  match a with
  | some s => if s.isEmpty then b else s
  | none => b

/-- `buildRouteSchema` from `route-handler`: documentation summary
defaulting, per-location parameter validation (a location with no
parameters gets no schema object), body validation with TypeBox
pass-through / conversion and the permissive `t.Any()` default for
POST/PUT/PATCH, and response documentation when a response table is
present. -/
def buildRouteSchema (input : DocumentedRouteInput) : RouteSchema :=
  let summary :=
    jsOrString input.summary
      (jsOrString input.description (input.method ++ " " ++ input.path))
  let locSchemas :=
    match input.params with
    | some ps =>
      let queryParams := ps.filter (fun (p : Parameter) => p.«in» = "query")
      let pathParams := ps.filter (fun (p : Parameter) => p.«in» = "path")
      let headerParams := ps.filter (fun (p : Parameter) => p.«in» = "header")
      (if queryParams.length > 0 then some (buildTypeBoxSchema queryParams) else none,
       if pathParams.length > 0 then some (buildTypeBoxSchema pathParams) else none,
       if headerParams.length > 0 then some (buildTypeBoxSchema headerParams) else none)
    | none => (none, none, none)
  let methodDefault :=
    if ["POST", "PUT", "PATCH"].contains input.method then
      some (TBox.tAnyT none)
    else none
  let body :=
    match input.schemasRequest with
    | some s =>
      if jsTruthy s then
        if isTypeBoxSchema s then some (asTBox s)
        else some (convertSchemaToTypeBox s)
      else methodDefault
    | none => methodDefault
  let responses :=
    match input.responses with
    | some rs => some (buildOpenAPIResponses rs input.schemasResponse)
    | none => none
  ⟨⟨summary, input.description, input.tags.getD [], responses⟩,
   locSchemas.1, locSchemas.2.1, locSchemas.2.2, body⟩

/-- The result of running a wrapped handler on one request: the status the
wrapper set (if any), the returned body, how many times the underlying
handler was invoked, and the principal attached to the context. -/
structure WrapOutcome where
  status : Option Nat
  body : JSVal
  handlerCalls : Nat
  principal : Option JSVal

/-- The `{error:"Unauthorized", message}` bodies of the auth gate. -/
def unauthorizedBody (message : String) : JSVal :=
  .obj [("error", .str "Unauthorized"), ("message", .str message)]

/-- `error instanceof Error ? error.message : "Unknown error"`. -/
def errorMessage : Thrown → String
  | .errObj m => m
  | .nonError _ => "Unknown error"

/-- The final `try { return await input.handler(context) } catch` block of
the wrapped handler: one invocation, with thrown errors converted to a 500
`{error:"Internal Server Error", message}` body. -/
def invokeHandler (handler : Option JSVal → HandlerResult)
    (user : Option JSVal) : WrapOutcome :=
  match handler user with
  | .ret v => ⟨none, v, 1, user⟩
  | .thrown e =>
    ⟨some 500,
     .obj [("error", .str "Internal Server Error"),
           ("message", .str (errorMessage e))],
     1, user⟩

/-- `wrapHandler` from `route-handler`, run on one request.  `verify` is the
external JWT collaborator, `authHeader` the request's `Authorization` header
(`none` when `headers.get` returned `null`).  When `requiresAuth` is truthy
the gate runs first: a falsy or non-`Bearer ` header, a verification error,
or a falsy payload each terminate with 401 before the handler is invoked;
on success the payload becomes the context principal. -/
def wrapHandler (input : DocumentedRouteInput) (verify : String → VerifyResult)
    (authHeader : Option String) : WrapOutcome :=
  if jsTruthyOpt input.requiresAuth then
    match authHeader with
    | none => ⟨some 401, unauthorizedBody "Missing or invalid token", 0, none⟩
    | some h =>
      if h.isEmpty || !jsStartsWith h "Bearer " then
        ⟨some 401, unauthorizedBody "Missing or invalid token", 0, none⟩
      else
        match verify (h.drop 7) with
        | .thrown =>
          ⟨some 401, unauthorizedBody "Token verification failed", 0, none⟩
        | .ret payload =>
          if !jsTruthy payload then
            ⟨some 401, unauthorizedBody "Invalid or expired token", 0, none⟩
          else invokeHandler input.handler (some payload)
  else invokeHandler input.handler none

/-- One collapsing pass over the characters of a string: each occurrence of
`"//"` is replaced by `"/"`, scanning left to right without rescanning the
replacement — the semantics of `.replace(/\/\//g, "/")`. -/
def collapseAux : List Char → List Char
  | '/' :: '/' :: rest => '/' :: collapseAux rest
  | c :: rest => c :: collapseAux rest
  | [] => []

/-- ``fullPath = `${basePath}${path}`.replace(/\/\//g, "/")`` as computed by
`ApiNote.documentedRoute` and `ApiNote.route`. -/
def resolveFullPath (basePath path : String) : String :=
  ⟨collapseAux (basePath ++ path).data⟩

/-- Modelled from the spec (§4.5): the path-resolution contract, `fullPath =
basePath + path` "with any resulting double slash collapsed to one",
read as replacing each double slash of the concatenation by a single
slash. -/
def specResolvedPath (basePath path : String) : String :=
  ⟨collapseAux (basePath ++ path).data⟩

/-- The stripped names of the `"!"`-marked keys of a schema definition, in
order — the `required` list the documentation path collects. -/
def markedNames (fields : List (String × SDVal)) : List String :=
  fields.filterMap
    (fun f => if jsStartsWith f.1 "!" then some (f.1.drop 1) else none)

/-- Removal of a key from a JS record (`delete r[k]`). -/
def recDelete (r : List (String × α)) (k : String) : List (String × α) :=
  r.filter (fun e => e.1 ≠ k)

/-! ### Record lemmas

`recordSet` / `foldRecord` model JS property assignment; the lemmas below
characterise reads from a record built by a loop of assignments. -/

theorem recGet_map_overwrite (r : List (String × α)) (k : String) (v : α) :
    recGet (r.map (fun e => if e.1 = k then (k, v) else e)) k =
      if r.any (fun e => e.1 = k) then some v else none := by
  induction r with
  | nil => simp [recGet]
  | cons e rest ih =>
    by_cases he : e.1 = k
    · simp [recGet, he]
    · have hfe : (if e.1 = k then (k, v) else e) = e := if_neg he
      have hd : (decide (e.1 = k)) = false := decide_eq_false he
      simp only [List.map_cons, hfe, recGet, if_neg he, ih, List.any_cons, hd,
        Bool.false_or]

theorem recGet_map_overwrite_ne (r : List (String × α)) (k k' : String) (v : α)
    (h : k' ≠ k) :
    recGet (r.map (fun e => if e.1 = k then (k, v) else e)) k' = recGet r k' := by
  induction r with
  | nil => simp [recGet]
  | cons e rest ih =>
    by_cases he : e.1 = k
    · simp [recGet, he, Ne.symm h, ih]
    · by_cases he' : e.1 = k'
      · simp [recGet, he, he', h]
      · simp [recGet, he, he', ih]

theorem recGet_append (r₁ r₂ : List (String × α)) (k : String) :
    recGet (r₁ ++ r₂) k =
      match recGet r₁ k with
      | some v => some v
      | none => recGet r₂ k := by
  induction r₁ with
  | nil => simp [recGet]
  | cons e rest ih =>
    by_cases he : e.1 = k
    · simp [recGet, he]
    · simp [recGet, he, ih]

theorem recGet_none_of_not_any (r : List (String × α)) (k : String)
    (h : r.any (fun e => e.1 = k) = false) : recGet r k = none := by
  induction r with
  | nil => rfl
  | cons e rest ih =>
    simp only [List.any_cons, Bool.or_eq_false_iff] at h
    have he : e.1 ≠ k := by simpa using h.1
    simp [recGet, he, ih h.2]

theorem recGet_recordSet_self (r : List (String × α)) (k : String) (v : α) :
    recGet (recordSet r k v) k = some v := by
  unfold recordSet
  by_cases hany : r.any (fun e => e.1 = k)
  · rw [if_pos hany, recGet_map_overwrite, if_pos hany]
  · rw [if_neg hany, recGet_append,
      recGet_none_of_not_any r k (Bool.not_eq_true _ ▸ hany)]
    simp [recGet]

theorem recGet_recordSet_ne (r : List (String × α)) (k k' : String) (v : α)
    (h : k' ≠ k) : recGet (recordSet r k v) k' = recGet r k' := by
  unfold recordSet
  split
  · exact recGet_map_overwrite_ne r k k' v h
  · rw [recGet_append]
    cases hr : recGet r k' with
    | some w => rfl
    | none => simp [recGet, Ne.symm h]

theorem recGet_foldRecord (entries : List (String × β)) (acc : List (String × β))
    (k : String) :
    recGet (foldRecord entries acc) k =
      entries.foldl (fun r e => if e.1 = k then some e.2 else r) (recGet acc k) := by
  induction entries generalizing acc with
  | nil => simp [foldRecord]
  | cons e rest ih =>
    simp only [foldRecord, List.foldl_cons] at *
    rw [ih (recordSet acc e.1 e.2)]
    by_cases he : e.1 = k
    · subst he
      rw [recGet_recordSet_self, if_pos rfl]
    · rw [recGet_recordSet_ne _ _ _ _ (Ne.symm he), if_neg he]

theorem recGet_foldRecord_nil (entries : List (String × β)) (k : String) :
    recGet (foldRecord entries []) k = lastAssoc entries k := by
  rw [recGet_foldRecord]
  simp [recGet, lastAssoc]

theorem lastAssoc_append (l₁ l₂ : List (String × β)) (k : String) :
    lastAssoc (l₁ ++ l₂) k =
      l₂.foldl (fun r e => if e.1 = k then some e.2 else r) (lastAssoc l₁ k) := by
  simp [lastAssoc, List.foldl_append]

theorem lastAssoc_foldl_acc (entries : List (String × β)) (k : String)
    (acc : Option β) :
    entries.foldl (fun r e => if e.1 = k then some e.2 else r) acc =
      if entries.any (fun e => e.1 = k) then lastAssoc entries k else acc := by
  induction entries generalizing acc with
  | nil => simp
  | cons e rest ih =>
    simp only [List.foldl_cons, List.any_cons, lastAssoc]
    rw [ih, ih]
    by_cases hr : rest.any (fun e => e.1 = k) = true
    · simp [hr]
    · simp only [Bool.not_eq_true] at hr
      by_cases he : e.1 = k <;> simp [he, hr]

theorem lastAssoc_of_mem_nodup (entries : List (String × β)) (k : String) (v : β)
    (hnd : (entries.map Prod.fst).Nodup) (hm : (k, v) ∈ entries) :
    lastAssoc entries k = some v := by
  induction entries with
  | nil => simp at hm
  | cons e rest ih =>
    simp only [List.map_cons, List.nodup_cons] at hnd
    rcases List.mem_cons.mp hm with h | h
    · have hk1 : e.1 = k := by rw [← h]
      have hkm : k ∉ rest.map Prod.fst := hk1 ▸ hnd.1
      have hrest : rest.any (fun e' => e'.1 = k) = false := by
        rw [List.any_eq_false]
        intro e' he'
        simp only [decide_eq_true_eq]
        intro hk
        exact hkm (List.mem_map.mpr ⟨e', he', hk⟩)
      have hv : e.2 = v := by rw [← h]
      simp only [lastAssoc, List.foldl_cons]
      rw [lastAssoc_foldl_acc, hrest]
      simp [hk1, hv]
    · have hrest : rest.any (fun e => e.1 = k) = true :=
        List.any_eq_true.mpr ⟨(k, v), h, by simp⟩
      simp only [lastAssoc, List.foldl_cons]
      rw [lastAssoc_foldl_acc, hrest]
      simpa using ih hnd.2 h

theorem lastAssoc_foldl_isSome (entries : List (String × β)) (k : String)
    (acc : Option β) :
    (entries.foldl (fun r e => if e.1 = k then some e.2 else r) acc).isSome
      = (acc.isSome || entries.any (fun e => e.1 = k)) := by
  induction entries generalizing acc with
  | nil => simp
  | cons e rest ih =>
    simp only [List.foldl_cons, List.any_cons]
    rw [ih]
    by_cases he : e.1 = k <;> simp [he]

theorem lastAssoc_isSome_of_mem (entries : List (String × β)) (k : String) (v : β)
    (hm : (k, v) ∈ entries) : (lastAssoc entries k).isSome := by
  unfold lastAssoc
  rw [lastAssoc_foldl_isSome]
  have : entries.any (fun e => e.1 = k) = true :=
    List.any_eq_true.mpr ⟨(k, v), hm, by simp⟩
  simp [this]

theorem recGet_of_mem_nodup (l : List (String × β)) (k : String) (v : β)
    (hnd : (l.map Prod.fst).Nodup) (hm : (k, v) ∈ l) :
    recGet l k = some v := by
  induction l with
  | nil => simp at hm
  | cons e rest ih =>
    simp only [List.map_cons, List.nodup_cons] at hnd
    rcases List.mem_cons.mp hm with h | h
    · have hk : e.1 = k := by rw [← h]
      have hv : e.2 = v := by rw [← h]
      rw [show recGet (e :: rest) k =
          (if e.1 = k then some e.2 else recGet rest k) from rfl,
        if_pos hk, hv]
    · have hek : e.1 ≠ k := by
        intro hk
        exact hnd.1 (hk ▸ List.mem_map.mpr ⟨(k, v), h, rfl⟩)
      rw [show recGet (e :: rest) k =
          (if e.1 = k then some e.2 else recGet rest k) from rfl,
        if_neg hek]
      exact ih hnd.2 h

theorem recordSet_eq_append (r : List (String × α)) (k : String) (v : α)
    (h : r.any (fun e => e.1 = k) = false) :
    recordSet r k v = r ++ [(k, v)] := by
  unfold recordSet
  rw [if_neg (by simp [h])]

theorem foldRecord_eq_append (entries acc : List (String × β))
    (hnd : (entries.map Prod.fst).Nodup)
    (hdisj : ∀ a ∈ acc, ∀ e ∈ entries, a.1 ≠ e.1) :
    foldRecord entries acc = acc ++ entries := by
  induction entries generalizing acc with
  | nil => simp [foldRecord]
  | cons e rest ih =>
    simp only [List.map_cons, List.nodup_cons] at hnd
    have hacc : acc.any (fun a => a.1 = e.1) = false := by
      rw [List.any_eq_false]
      intro a ha
      simpa using hdisj a ha e (by simp)
    have hstep : recordSet acc e.1 e.2 = acc ++ [e] := by
      rw [recordSet_eq_append _ _ _ hacc]
    simp only [foldRecord, List.foldl_cons] at *
    rw [hstep, ih (acc ++ [e]) hnd.2]
    · simp
    · intro a ha f hf
      rcases List.mem_append.mp ha with h1 | h1
      · exact hdisj a h1 f (List.mem_cons_of_mem _ hf)
      · have : a = e := by simpa using h1
        subst this
        intro hk
        exact hnd.1 (hk ▸ List.mem_map.mpr ⟨f, hf, rfl⟩)

theorem ctbLoop_eq_foldRecord (fields : List (String × JSVal))
    (acc : List (String × TBox)) :
    ctbLoop fields acc =
      foldRecord (fields.map (fun f => (cleanKey f.1, ctbVal f.1 f.2))) acc := by
  induction fields generalizing acc with
  | nil => simp [ctbLoop, foldRecord]
  | cons f rest ih =>
    obtain ⟨key, v⟩ := f
    rw [show ctbLoop ((key, v) :: rest) acc =
        ctbLoop rest (recordSet acc (cleanKey key) (ctbVal key v)) from by
      simp only [ctbLoop]]
    rw [ih]
    simp [foldRecord]

theorem sdLoop_eq (fields : List (String × SDVal))
    (props : List (String × OProp)) (req : List String) :
    sdLoop fields props req =
      (foldRecord (fields.map (fun f => (cleanKey f.1, sdProp f.2))) props,
       req ++ markedNames fields) := by
  induction fields generalizing props req with
  | nil => simp [sdLoop, foldRecord, markedNames]
  | cons f rest ih =>
    obtain ⟨key, v⟩ := f
    rw [show sdLoop ((key, v) :: rest) props req =
        sdLoop rest (recordSet props (cleanKey key) (sdProp v))
          (if jsStartsWith key "!" then req ++ [cleanKey key] else req) from by
      simp only [sdLoop]]
    rw [ih]
    by_cases hm : jsStartsWith key "!" <;>
      simp [foldRecord, markedNames, cleanKey, hm, List.filterMap_cons]

theorem convertSchemaDefinitionToOpenAPI_eq (d : List (String × SDVal)) :
    convertSchemaDefinitionToOpenAPI d =
      ⟨foldRecord (d.map (fun f => (cleanKey f.1, sdProp f.2))) [],
       if (markedNames d).length > 0 then some (markedNames d) else none⟩ := by
  rw [show convertSchemaDefinitionToOpenAPI d =
      ⟨(sdLoop d [] []).1,
       if (sdLoop d [] []).2.length > 0 then some (sdLoop d [] []).2 else none⟩
    from by simp [convertSchemaDefinitionToOpenAPI]]
  rw [sdLoop_eq]
  simp

theorem tbCheckFields_eq_all (fields : List (String × TBox))
    (kvs : List (String × JSVal)) :
    tbCheckFields fields kvs = true ↔
      ∀ e ∈ fields,
        (match recGet kvs e.1 with
         | some v => tbCheck e.2 v
         | none => isOptionalTB e.2) = true := by
  induction fields with
  | nil => simp [tbCheckFields]
  | cons f rest ih =>
    obtain ⟨k, s⟩ := f
    rw [show tbCheckFields ((k, s) :: rest) kvs =
        ((match recGet kvs k with
          | some v => tbCheck s v
          | none => isOptionalTB s) && tbCheckFields rest kvs) from rfl]
    simp only [Bool.and_eq_true, ih, List.mem_cons]
    constructor
    · rintro ⟨h1, h2⟩ e (he | he)
      · subst he
        exact h1
      · exact h2 e he
    · intro h
      exact ⟨h (k, s) (Or.inl rfl), fun e he => h e (Or.inr he)⟩

/-! ### Facts about the conversion building blocks -/

theorem isEmpty_false_of_startsWith_Bearer (h : String)
    (hs : jsStartsWith h "Bearer " = true) : h.isEmpty = false := by
  by_contra hne
  have hempty : h.isEmpty = true := by simpa using hne
  have he : h = "" := by
    cases h with
    | mk data =>
      cases data with
      | nil => rfl
      | cons c cs =>
        simp [String.isEmpty] at hempty
        have h0 : String.utf8Len cs + c.utf8Size = 0 :=
          congrArg String.Pos.byteIdx hempty
        have hpos := Char.utf8Size_pos c
        omega
  subst he
  simp [jsStartsWith, List.isPrefixOf] at hs

theorem docToken_default (tok : String)
    (h : jsToLower tok ∉ ["string", "number", "boolean", "object", "array"]) :
    docToken tok = .ostring := by
  simp only [List.mem_cons, not_or] at h
  unfold docToken
  split
  · exact absurd (by assumption) h.2.1
  · exact absurd (by assumption) h.1
  · exact absurd (by assumption) h.2.2.1
  · exact absurd (by assumption) h.2.2.2.2.1
  · exact absurd (by assumption) h.2.2.2.1
  · rfl

theorem ctbToken_default (tok : String)
    (h : jsToLower tok ∉ ["string", "number", "boolean", "object", "array"]) :
    ctbToken tok = .tStr none := by
  simp only [List.mem_cons, not_or] at h
  unfold ctbToken
  split
  · exact absurd (by assumption) h.2.1
  · exact absurd (by assumption) h.1
  · exact absurd (by assumption) h.2.2.1
  · exact absurd (by assumption) h.2.2.2.2.1
  · exact absurd (by assumption) h.2.2.2.1
  · rfl

theorem isOptionalTB_ctbToken (tok : String) :
    isOptionalTB (ctbToken tok) = false := by
  unfold ctbToken
  split <;> rfl

theorem isOptionalTB_paramTypeSchema (p : Parameter) :
    isOptionalTB (paramTypeSchema p) = false := by
  unfold paramTypeSchema
  split <;> rfl

theorem isOptionalTB_paramField (p : Parameter) :
    isOptionalTB (paramField p) = (!jsTruthyOpt p.required || p.default.isSome) := by
  unfold paramField
  by_cases hc : (!jsTruthyOpt p.required || p.default.isSome) = true
  · rw [if_pos hc, hc]
    rfl
  · rw [if_neg hc, isOptionalTB_paramTypeSchema]
    simp only [Bool.not_eq_true] at hc
    rw [hc]

theorem recGet_ctbObj (fields : List (String × JSVal)) (k : String) :
    recGet (tObjFields (convertSchemaToTypeBox (.obj fields))) k =
      lastAssoc (fields.map (fun f => (cleanKey f.1, ctbVal f.1 f.2))) k := by
  rw [show convertSchemaToTypeBox (.obj fields) = .tObj (ctbLoop fields []) none
    from by simp [convertSchemaToTypeBox]]
  rw [show tObjFields (.tObj (ctbLoop fields []) none) = ctbLoop fields []
    from rfl]
  rw [ctbLoop_eq_foldRecord, recGet_foldRecord_nil]

theorem recGet_recDelete_self (r : List (String × α)) (k : String) :
    recGet (recDelete r k) k = none := by
  induction r with
  | nil => rfl
  | cons e rest ih =>
    by_cases he : e.1 = k
    · have h1 : recDelete (e :: rest) k = recDelete rest k := by
        simp [recDelete, List.filter_cons, he]
      rw [h1]
      exact ih
    · have h1 : recDelete (e :: rest) k = e :: recDelete rest k := by
        simp [recDelete, List.filter_cons, he]
      rw [h1, show recGet (e :: recDelete rest k) k =
          if e.1 = k then some e.2 else recGet (recDelete rest k) k from rfl,
        if_neg he]
      exact ih

theorem recGet_recDelete_ne (r : List (String × α)) (k k' : String)
    (h : k' ≠ k) : recGet (recDelete r k) k' = recGet r k' := by
  induction r with
  | nil => rfl
  | cons e rest ih =>
    by_cases he : e.1 = k
    · have h1 : recDelete (e :: rest) k = recDelete rest k := by
        simp [recDelete, List.filter_cons, he]
      have he' : e.1 ≠ k' := by
        rw [he]
        exact Ne.symm h
      rw [h1, ih, show recGet (e :: rest) k' =
          if e.1 = k' then some e.2 else recGet rest k' from rfl, if_neg he']
    · have h1 : recDelete (e :: rest) k = e :: recDelete rest k := by
        simp [recDelete, List.filter_cons, he]
      rw [h1, show recGet (e :: recDelete rest k) k' =
          if e.1 = k' then some e.2 else recGet (recDelete rest k) k' from rfl,
        show recGet (e :: rest) k' =
          if e.1 = k' then some e.2 else recGet rest k' from rfl, ih]

theorem snd_eq_of_mem_nodup_keys (l : List (String × β)) (k : String) (a b : β)
    (hnd : (l.map Prod.fst).Nodup) (ha : (k, a) ∈ l) (hb : (k, b) ∈ l) :
    a = b := by
  induction l with
  | nil => simp at ha
  | cons e rest ih =>
    simp only [List.map_cons, List.nodup_cons] at hnd
    rcases List.mem_cons.mp ha with h1 | h1 <;>
      rcases List.mem_cons.mp hb with h2 | h2
    · rw [← h1] at h2
      exact (Prod.ext_iff.mp h2).2.symm
    · exfalso
      apply hnd.1
      rw [show e.1 = k from by rw [← h1]]
      exact List.mem_map.mpr ⟨(k, b), h2, rfl⟩
    · exfalso
      apply hnd.1
      rw [show e.1 = k from by rw [← h2]]
      exact List.mem_map.mpr ⟨(k, a), h1, rfl⟩
    · exact ih hnd.2 h1 h2

/-! ### The claims -/

/-- C1: on a `requiresAuth : true` route the wrapped handler returns 401
`{error:"Unauthorized", message:"Missing or invalid token"}` without invoking
the handler when the `Authorization` header is absent or does not start with
`"Bearer "`; 401 with `"Token verification failed"` when the JWT
collaborator's `verify` throws; 401 with `"Invalid or expired token"` when
`verify` returns a falsy payload — in all three cases with zero handler
invocations — and on a truthy payload the payload is attached to the context
as the principal and the handler is invoked (exactly once) with it. -/
theorem C1_auth_gate (input : DocumentedRouteInput) (verify : String → VerifyResult)
    (authHeader : Option String) (hauth : input.requiresAuth = some true) :
    ((authHeader = none ∨
        ∃ h, authHeader = some h ∧ jsStartsWith h "Bearer " = false) →
      wrapHandler input verify authHeader =
        ⟨some 401, unauthorizedBody "Missing or invalid token", 0, none⟩) ∧
    (∀ h, authHeader = some h → jsStartsWith h "Bearer " = true →
      verify (h.drop 7) = .thrown →
      wrapHandler input verify authHeader =
        ⟨some 401, unauthorizedBody "Token verification failed", 0, none⟩) ∧
    (∀ h p, authHeader = some h → jsStartsWith h "Bearer " = true →
      verify (h.drop 7) = .ret p → jsTruthy p = false →
      wrapHandler input verify authHeader =
        ⟨some 401, unauthorizedBody "Invalid or expired token", 0, none⟩) ∧
    (∀ h p, authHeader = some h → jsStartsWith h "Bearer " = true →
      verify (h.drop 7) = .ret p → jsTruthy p = true →
      wrapHandler input verify authHeader = invokeHandler input.handler (some p) ∧
      (wrapHandler input verify authHeader).principal = some p ∧
      (wrapHandler input verify authHeader).handlerCalls = 1) := by
  refine ⟨?_, ?_, ?_, ?_⟩
  · rintro (hna | ⟨h, hna, hsw⟩)
    · subst hna
      simp [wrapHandler, hauth, jsTruthyOpt]
    · subst hna
      simp [wrapHandler, hauth, jsTruthyOpt, hsw]
  · intro h hna hsw hv
    subst hna
    have hie := isEmpty_false_of_startsWith_Bearer h hsw
    simp [wrapHandler, hauth, jsTruthyOpt, hsw, hie, hv]
  · intro h p hna hsw hv hp
    subst hna
    have hie := isEmpty_false_of_startsWith_Bearer h hsw
    simp [wrapHandler, hauth, jsTruthyOpt, hsw, hie, hv, hp]
  · intro h p hna hsw hv hp
    subst hna
    have hie := isEmpty_false_of_startsWith_Bearer h hsw
    have hw : wrapHandler input verify (some h) =
        invokeHandler input.handler (some p) := by
      simp [wrapHandler, hauth, jsTruthyOpt, hsw, hie, hv, hp]
    refine ⟨hw, ?_, ?_⟩ <;> rw [hw] <;> unfold invokeHandler <;>
      cases input.handler (some p) <;> rfl

/-- Witness for C1 at concrete requests: an absent header, a failing
verifier, a falsy payload, and a truthy payload. -/
theorem C1_auth_gate_witness :
    wrapHandler ⟨"GET", "/x", none, none, none, fun _ => .ret (.str "ok"),
        none, none, none, none, some true⟩ (fun _ => .ret (.str "p")) none =
      ⟨some 401, unauthorizedBody "Missing or invalid token", 0, none⟩ ∧
    wrapHandler ⟨"GET", "/x", none, none, none, fun _ => .ret (.str "ok"),
        none, none, none, none, some true⟩ (fun _ => .thrown) (some "Bearer t") =
      ⟨some 401, unauthorizedBody "Token verification failed", 0, none⟩ ∧
    wrapHandler ⟨"GET", "/x", none, none, none, fun _ => .ret (.str "ok"),
        none, none, none, none, some true⟩ (fun _ => .ret .vnull) (some "Bearer t") =
      ⟨some 401, unauthorizedBody "Invalid or expired token", 0, none⟩ ∧
    wrapHandler ⟨"GET", "/x", none, none, none, fun _ => .ret (.str "ok"),
        none, none, none, none, some true⟩ (fun _ => .ret (.str "p")) (some "Bearer t") =
      invokeHandler (fun _ => HandlerResult.ret (.str "ok")) (some (.str "p")) :=
  ⟨(C1_auth_gate _ _ _ rfl).1 (Or.inl rfl),
   (C1_auth_gate _ _ _ rfl).2.1 "Bearer t" rfl (by decide) rfl,
   (C1_auth_gate _ _ _ rfl).2.2.1 "Bearer t" .vnull rfl (by decide) rfl (by decide),
   ((C1_auth_gate _ _ _ rfl).2.2.2 "Bearer t" (.str "p") rfl (by decide) rfl
     (by decide)).1⟩

/-- C2: when the wrapped handler reaches the underlying handler, a thrown
`Error` yields status 500 and `{error:"Internal Server Error", message}`
with the error's message, any other thrown value yields the generic
`"Unknown error"` message, a normal return is passed through unmodified as
the body, and the handler is invoked exactly once; on a route without
`requiresAuth` the wrapped handler always reaches this invocation with no
principal attached. -/
theorem C2_handler_containment (input : DocumentedRouteInput)
    (verify : String → VerifyResult) (authHeader : Option String) :
    (jsTruthyOpt input.requiresAuth = false →
      wrapHandler input verify authHeader = invokeHandler input.handler none) ∧
    (∀ user m, input.handler user = .thrown (.errObj m) →
      invokeHandler input.handler user =
        ⟨some 500,
         .obj [("error", .str "Internal Server Error"), ("message", .str m)],
         1, user⟩) ∧
    (∀ user e, input.handler user = .thrown (.nonError e) →
      invokeHandler input.handler user =
        ⟨some 500,
         .obj [("error", .str "Internal Server Error"),
               ("message", .str "Unknown error")],
         1, user⟩) ∧
    (∀ user v, input.handler user = .ret v →
      invokeHandler input.handler user = ⟨none, v, 1, user⟩) ∧
    (∀ user, (invokeHandler input.handler user).handlerCalls = 1) := by
  refine ⟨?_, ?_, ?_, ?_, ?_⟩
  · intro hna
    simp [wrapHandler, hna]
  · intro user m hh
    unfold invokeHandler
    rw [hh]
    rfl
  · intro user e hh
    unfold invokeHandler
    rw [hh]
    rfl
  · intro user v hh
    unfold invokeHandler
    rw [hh]
  · intro user
    unfold invokeHandler
    cases input.handler user <;> rfl

/-- Witness for C2: a handler throwing `Error("boom")`, one throwing a
non-`Error` value, and one returning normally, on a route without auth. -/
theorem C2_handler_containment_witness :
    wrapHandler ⟨"GET", "/y", none, none, none,
        fun _ => .thrown (.errObj "boom"), none, none, none, none, none⟩
      (fun _ => .thrown) none =
      invokeHandler (fun _ => HandlerResult.thrown (.errObj "boom")) none ∧
    invokeHandler (fun _ => HandlerResult.thrown (.errObj "boom")) none =
      ⟨some 500,
       .obj [("error", .str "Internal Server Error"), ("message", .str "boom")],
       1, none⟩ ∧
    invokeHandler (fun _ => HandlerResult.thrown (.nonError (.num 3))) none =
      ⟨some 500,
       .obj [("error", .str "Internal Server Error"),
             ("message", .str "Unknown error")],
       1, none⟩ ∧
    invokeHandler (fun _ => HandlerResult.ret (.str "body")) none =
      ⟨none, .str "body", 1, none⟩ :=
  ⟨(C2_handler_containment
      { method := "GET", path := "/y",
        handler := fun _ => .thrown (.errObj "boom") }
      (fun _ => .thrown) none).1 rfl,
   (C2_handler_containment ⟨"GET", "/y", none, none, none,
      fun _ => .thrown (.errObj "boom"), none, none, none, none, none⟩
      (fun _ => .thrown) none).2.1 none "boom" rfl,
   (C2_handler_containment ⟨"GET", "/y", none, none, none,
      fun _ => .thrown (.nonError (.num 3)), none, none, none, none, none⟩
      (fun _ => .thrown) none).2.2.1 none (.num 3) rfl,
   (C2_handler_containment ⟨"GET", "/y", none, none, none,
      fun _ => .ret (.str "body"), none, none, none, none, none⟩
      (fun _ => .thrown) none).2.2.2.1 none (.str "body") rfl⟩

theorem ctbVal_token_default (key tok : String)
    (htok : jsToLower tok ∉ ["string", "number", "boolean", "object", "array"]) :
    ctbVal key (.str tok) =
      (if jsStartsWith key "!" then TBox.tStr none
       else .tOpt (.tStr none)) := by
  simp only [ctbVal]
  rw [ctbToken_default tok htok]

theorem ctb_singleton (key : String) (v : JSVal) :
    convertSchemaToTypeBox (.obj [(key, v)]) =
      .tObj [(cleanKey key, ctbVal key v)] none := by
  rw [show convertSchemaToTypeBox (.obj [(key, v)]) =
      .tObj (ctbLoop [(key, v)] []) none from by simp [convertSchemaToTypeBox]]
  rw [show ctbLoop [(key, v)] [] =
      ctbLoop [] (recordSet [] (cleanKey key) (ctbVal key v)) from by
    simp only [ctbLoop]]
  simp [ctbLoop, recordSet]

/-- C3 (counterexample): on the field `{x: "strnig"}` the validation path
produces the string schema `t.Optional(t.String())`, not an open/untyped
placeholder — the schema it produces rejects the value `5`, so it does not
accept any value. -/
theorem C3_counterexample :
    convertSchemaToTypeBox (.obj [("x", .str "strnig")]) =
      .tObj [("x", .tOpt (.tStr none))] none ∧
    ¬ (∀ v, tbCheck (.tOpt (.tStr none)) v = true) := by
  constructor
  · rw [ctb_singleton, ctbVal_token_default "x" "strnig" (by decide)]
    rfl
  · intro hall
    have := hall (.num 5)
    simp [tbCheck] at this

/-- C3 (amended): for every `SchemaDefinition` field carrying an
unrecognised type-token string, the documentation path maps the field to
`{type:"string"}` and the validation path maps it to the string schema
`t.String()` (optionality aside, the same `string` fallback as the
documentation path); neither path fails. -/
theorem C3_amended (d : List (String × SDVal)) (fields : List (String × JSVal))
    (key key' tok tok' : String)
    (hd : (d.map (fun f => cleanKey f.1)).Nodup)
    (hf : (fields.map (fun f => cleanKey f.1)).Nodup)
    (hmem : (key, SDVal.token tok) ∈ d)
    (hmem' : (key', JSVal.str tok') ∈ fields)
    (htok : jsToLower tok ∉ ["string", "number", "boolean", "object", "array"])
    (htok' : jsToLower tok' ∉ ["string", "number", "boolean", "object", "array"]) :
    recGet (convertSchemaDefinitionToOpenAPI d).properties (cleanKey key) =
      some .ostring ∧
    recGet (tObjFields (convertSchemaToTypeBox (.obj fields))) (cleanKey key') =
      some (if jsStartsWith key' "!" then TBox.tStr none
            else .tOpt (.tStr none)) := by
  constructor
  · rw [convertSchemaDefinitionToOpenAPI_eq]
    rw [show (OSchema.mk
        (foldRecord (d.map (fun f => (cleanKey f.1, sdProp f.2))) [])
        (if (markedNames d).length > 0 then some (markedNames d)
         else none)).properties =
        foldRecord (d.map (fun f => (cleanKey f.1, sdProp f.2))) [] from rfl]
    rw [recGet_foldRecord_nil]
    have hnd2 : ((d.map (fun f => (cleanKey f.1, sdProp f.2))).map
        Prod.fst).Nodup := by
      simpa [List.map_map, Function.comp] using hd
    have hm2 : (cleanKey key, sdProp (SDVal.token tok)) ∈
        d.map (fun f => (cleanKey f.1, sdProp f.2)) :=
      List.mem_map.mpr ⟨(key, SDVal.token tok), hmem, rfl⟩
    rw [lastAssoc_of_mem_nodup _ _ _ hnd2 hm2]
    rw [show sdProp (SDVal.token tok) = docToken tok from by simp [sdProp]]
    rw [docToken_default tok htok]
  · rw [recGet_ctbObj]
    have hnd2 : ((fields.map (fun f => (cleanKey f.1, ctbVal f.1 f.2))).map
        Prod.fst).Nodup := by
      simpa [List.map_map, Function.comp] using hf
    have hm2 : (cleanKey key', ctbVal key' (.str tok')) ∈
        fields.map (fun f => (cleanKey f.1, ctbVal f.1 f.2)) :=
      List.mem_map.mpr ⟨(key', .str tok'), hmem', rfl⟩
    rw [lastAssoc_of_mem_nodup _ _ _ hnd2 hm2]
    rw [ctbVal_token_default key' tok' htok']

/-- Witness for C3 (amended) at the typo token `"strnig"` in a marked field
of a one-field definition, and at `"Strnig"` in an unmarked field. -/
theorem C3_amended_witness :
    recGet (convertSchemaDefinitionToOpenAPI
        [("!a", SDVal.token "strnig")]).properties (cleanKey "!a") =
      some .ostring ∧
    recGet (tObjFields (convertSchemaToTypeBox
        (.obj [("b", .str "Strnig")]))) (cleanKey "b") =
      some (.tOpt (.tStr none)) :=
  C3_amended [("!a", SDVal.token "strnig")] [("b", .str "Strnig")]
    "!a" "b" "strnig" "Strnig"
    (List.nodup_singleton _) (List.nodup_singleton _)
    (List.mem_singleton.mpr rfl) (List.mem_singleton.mpr rfl)
    (by decide) (by decide)

/-- C7: a supplied (truthy) `schemasRequest` becomes the body validation —
passed through unchanged when it is already a validation schema, else
converted via the validation path; with no `schemasRequest`, POST/PUT/PATCH
routes get the maximally permissive `t.Any()` body schema (which accepts
every value) and GET/DELETE/OPTIONS/HEAD routes get no body schema at
all. -/
theorem C7_body_schema (input : DocumentedRouteInput) :
    (∀ s, input.schemasRequest = some s → jsTruthy s = true →
      (buildRouteSchema input).body =
        some (if isTypeBoxSchema s then asTBox s else convertSchemaToTypeBox s) ∧
      (∀ tb, s = .tbox tb → (buildRouteSchema input).body = some tb)) ∧
    ((input.schemasRequest = none ∨
        ∃ s, input.schemasRequest = some s ∧ jsTruthy s = false) →
      ((input.method = "POST" ∨ input.method = "PUT" ∨ input.method = "PATCH") →
        (buildRouteSchema input).body = some (.tAnyT none)) ∧
      ((input.method = "GET" ∨ input.method = "DELETE" ∨
          input.method = "OPTIONS" ∨ input.method = "HEAD") →
        (buildRouteSchema input).body = none)) ∧
    (∀ v, tbCheck (.tAnyT none) v = true) := by
  refine ⟨?_, ?_, ?_⟩
  · intro s hs ht
    constructor
    · simp [buildRouteSchema, hs, ht]
      split <;> rfl
    · rintro tb rfl
      simp [buildRouteSchema, hs, ht, isTypeBoxSchema, asTBox]
  · intro hfalsy
    have hbody : (buildRouteSchema input).body =
        (if (["POST", "PUT", "PATCH"] : List String).contains input.method
         then some (.tAnyT none) else none) := by
      rcases hfalsy with hs | ⟨s, hs, ht⟩
      · simp [buildRouteSchema, hs]
      · simp [buildRouteSchema, hs, ht]
    constructor
    · rintro (hm | hm | hm) <;> rw [hbody, hm] <;> rfl
    · rintro (hm | hm | hm | hm) <;> rw [hbody, hm] <;> rfl
  · intro v
    simp [tbCheck]

/-- Witness for C7: a GET route with an already-compiled body schema keeps
it; a POST route without one gets `t.Any()`; a GET route without one gets no
body schema. -/
theorem C7_body_schema_witness :
    (buildRouteSchema ⟨"GET", "/w", none, none, none, fun _ => .ret .undef,
        none, some (.tbox (.tStr none)), none, none, none⟩).body =
      some (.tStr none) ∧
    (buildRouteSchema ⟨"POST", "/w", none, none, none, fun _ => .ret .undef,
        none, none, none, none, none⟩).body = some (.tAnyT none) ∧
    (buildRouteSchema ⟨"GET", "/w", none, none, none, fun _ => .ret .undef,
        none, none, none, none, none⟩).body = none :=
  ⟨((C7_body_schema ⟨"GET", "/w", none, none, none, fun _ => .ret .undef,
        none, some (.tbox (.tStr none)), none, none, none⟩).1
      (.tbox (.tStr none)) rfl rfl).2 (.tStr none) rfl,
   ((C7_body_schema _).2.1 (Or.inl rfl)).1 (Or.inl rfl),
   ((C7_body_schema _).2.1 (Or.inl rfl)).2 (Or.inl rfl)⟩

/-- C4: each status code's documentation entry carries, in order of
precedence, the entry's own schema converted via the documentation path,
else — exactly for status `"200"` or `"201"` — the converted route-level
fallback schema, else the generic untyped-object schema; and every entry
wraps its schema in a `content: {"application/json": {schema}}` envelope. -/
theorem C4_response_fallback (responses : List (String × ResponseEntry))
    (schemasResponse : Option JSVal) (status : String) (entry : ResponseEntry)
    (hnd : (responses.map Prod.fst).Nodup) (hmem : (status, entry) ∈ responses) :
    recGet (buildOpenAPIResponses responses schemasResponse) status =
      some ⟨entryDescription entry,
        [("application/json",
          ⟨match entrySchema entry with
           | some sd => ODoc.oschema (convertSchemaDefinitionToOpenAPI sd)
           | none =>
             match schemasResponse with
             | some sr =>
               if jsTruthy sr = true ∧ (status = "200" ∨ status = "201") then
                 convertToOpenAPISchema sr
               else ODoc.ogeneric
             | none => ODoc.ogeneric⟩)]⟩ := by
  unfold buildOpenAPIResponses
  rw [recGet_foldRecord_nil]
  have hnd2 : ((responses.map
      (fun e => (e.1, buildResponseObj e.1 e.2 schemasResponse))).map
      Prod.fst).Nodup := by
    simpa [List.map_map, Function.comp] using hnd
  have hm2 : (status, buildResponseObj status entry schemasResponse) ∈
      responses.map (fun e => (e.1, buildResponseObj e.1 e.2 schemasResponse)) :=
    List.mem_map.mpr ⟨(status, entry), hmem, rfl⟩
  rw [lastAssoc_of_mem_nodup _ _ _ hnd2 hm2]
  unfold buildResponseObj
  cases entry with
  | strE s =>
    cases schemasResponse with
    | none => simp [entryDescription, entrySchema]
    | some sr =>
      by_cases ht : jsTruthy sr = true
      · by_cases hst : status = "200" ∨ status = "201"
        · have hb : (status = "200" || status = "201") = true := by
            rcases hst with h | h <;> simp [h]
          simp [entryDescription, entrySchema, ht, hst, hb]
        · have hb : (status = "200" || status = "201") = false := by
            push_neg at hst
            simp [hst.1, hst.2]
          simp [entryDescription, entrySchema, ht, hst, hb]
      · have ht' : jsTruthy sr = false := by simpa using ht
        simp [entryDescription, entrySchema, ht', ht]
  | defE dd =>
    cases hs : dd.schema with
    | some sd => simp [entryDescription, entrySchema, hs]
    | none =>
      cases schemasResponse with
      | none => simp [entryDescription, entrySchema, hs]
      | some sr =>
        by_cases ht : jsTruthy sr = true
        · by_cases hst : status = "200" ∨ status = "201"
          · have hb : (status = "200" || status = "201") = true := by
              rcases hst with h | h <;> simp [h]
            simp [entryDescription, entrySchema, hs, ht, hst, hb]
          · have hb : (status = "200" || status = "201") = false := by
              push_neg at hst
              simp [hst.1, hst.2]
            simp [entryDescription, entrySchema, hs, ht, hst, hb]
        · have ht' : jsTruthy sr = false := by simpa using ht
          simp [entryDescription, entrySchema, hs, ht', ht]

/-- Witness for C4 at the spec's own example: `{"200":"ok","404":"missing"}`
with fallback `{id:"number"}` — the fallback is converted for `"200"` only,
`"404"` keeps the generic object schema, both inside the JSON envelope. -/
theorem C4_response_fallback_witness :
    recGet (buildOpenAPIResponses
        [("200", .strE "ok"), ("404", .strE "missing")]
        (some (.obj [("id", .str "number")]))) "200" =
      some ⟨"ok", [("application/json",
        ⟨.oschema ⟨[("id", .ostring)], none⟩⟩)]⟩ ∧
    recGet (buildOpenAPIResponses
        [("200", .strE "ok"), ("404", .strE "missing")]
        (some (.obj [("id", .str "number")]))) "404" =
      some ⟨"missing", [("application/json", ⟨.ogeneric⟩)]⟩ :=
  ⟨C4_response_fallback _ _ "200" (.strE "ok") (by decide) (by simp),
   C4_response_fallback _ _ "404" (.strE "missing") (by decide) (by simp)⟩

/-- C5: a `"!"`-marked key appears in the output of both conversion paths
under its stripped name; the documentation path collects every marked key's
stripped name into the `required` list, which is attached exactly when it is
non-empty; and on the validation path marked fields are not wrapped
`t.Optional` while unmarked fields are. -/
theorem C5_required_marker (d : List (String × SDVal))
    (fields : List (String × JSVal)) (key : String) (v : SDVal)
    (kj : String) (vj : JSVal) :
    ((key, v) ∈ d →
      (recGet (convertSchemaDefinitionToOpenAPI d).properties
        (cleanKey key)).isSome) ∧
    ((key, v) ∈ d → jsStartsWith key "!" = true →
      cleanKey key ∈ markedNames d) ∧
    ((convertSchemaDefinitionToOpenAPI d).required =
      (if markedNames d = [] then none else some (markedNames d))) ∧
    ((kj, vj) ∈ fields →
      (recGet (tObjFields (convertSchemaToTypeBox (.obj fields)))
        (cleanKey kj)).isSome) ∧
    ((kj, vj) ∈ fields → (fields.map (fun f => cleanKey f.1)).Nodup →
      ((∃ s, vj = .str s) ∨ (∃ fs, vj = .obj fs)) →
      recGet (tObjFields (convertSchemaToTypeBox (.obj fields)))
          (cleanKey kj) = some (ctbVal kj vj) ∧
      isOptionalTB (ctbVal kj vj) = !(jsStartsWith kj "!")) := by
  refine ⟨?_, ?_, ?_, ?_, ?_⟩
  · intro hmem
    rw [convertSchemaDefinitionToOpenAPI_eq]
    rw [show (OSchema.mk
        (foldRecord (d.map (fun f => (cleanKey f.1, sdProp f.2))) [])
        (if (markedNames d).length > 0 then some (markedNames d)
         else none)).properties =
        foldRecord (d.map (fun f => (cleanKey f.1, sdProp f.2))) [] from rfl]
    rw [recGet_foldRecord_nil]
    exact lastAssoc_isSome_of_mem _ _ (sdProp v)
      (List.mem_map.mpr ⟨(key, v), hmem, rfl⟩)
  · intro hmem hk
    refine List.mem_filterMap.mpr ⟨(key, v), hmem, ?_⟩
    simp [hk, cleanKey]
  · rw [convertSchemaDefinitionToOpenAPI_eq]
    cases h : markedNames d <;> simp [h]
  · intro hmem
    rw [recGet_ctbObj]
    exact lastAssoc_isSome_of_mem _ _ (ctbVal kj vj)
      (List.mem_map.mpr ⟨(kj, vj), hmem, rfl⟩)
  · intro hmem hnd hshape
    have hnd2 : ((fields.map (fun f => (cleanKey f.1, ctbVal f.1 f.2))).map
        Prod.fst).Nodup := by
      simpa [List.map_map, Function.comp] using hnd
    constructor
    · rw [recGet_ctbObj]
      exact lastAssoc_of_mem_nodup _ _ _ hnd2
        (List.mem_map.mpr ⟨(kj, vj), hmem, rfl⟩)
    · rcases hshape with ⟨s, rfl⟩ | ⟨fs, rfl⟩
      · simp only [ctbVal]
        cases hk : jsStartsWith kj "!"
        · simp [isOptionalTB]
        · simp [isOptionalTB_ctbToken]
      · simp only [ctbVal]
        have hco : convertSchemaToTypeBox (.obj fs) =
            .tObj (ctbLoop fs []) none := by simp [convertSchemaToTypeBox]
        cases hk : jsStartsWith kj "!"
        · simp [isOptionalTB]
        · simp [hco, isOptionalTB]

/-- Witness for C5 at the definition `{"!a": "number", "b": "string"}` (and
its JS-value form on the validation path). -/
theorem C5_required_marker_witness :
    (recGet (convertSchemaDefinitionToOpenAPI
        [("!a", SDVal.token "number"), ("b", SDVal.token "string")]).properties
      (cleanKey "!a")).isSome ∧
    cleanKey "!a" ∈
      markedNames [("!a", SDVal.token "number"), ("b", SDVal.token "string")] ∧
    (convertSchemaDefinitionToOpenAPI
        [("!a", SDVal.token "number"), ("b", SDVal.token "string")]).required =
      (if markedNames [("!a", SDVal.token "number"),
          ("b", SDVal.token "string")] = [] then none
       else some (markedNames [("!a", SDVal.token "number"),
          ("b", SDVal.token "string")])) ∧
    recGet (tObjFields (convertSchemaToTypeBox
        (.obj [("!a", .str "number"), ("b", .str "string")])))
      (cleanKey "!a") = some (ctbVal "!a" (.str "number")) ∧
    isOptionalTB (ctbVal "!a" (.str "number")) = !(jsStartsWith "!a" "!") :=
  ⟨(C5_required_marker [("!a", SDVal.token "number"),
      ("b", SDVal.token "string")] [] "!a" (SDVal.token "number") "" .undef).1
      (by simp),
   (C5_required_marker [("!a", SDVal.token "number"),
      ("b", SDVal.token "string")] [] "!a" (SDVal.token "number") "" .undef).2.1
      (by simp) (by decide),
   (C5_required_marker [("!a", SDVal.token "number"),
      ("b", SDVal.token "string")] [] "!a" (SDVal.token "number") ""
      .undef).2.2.1,
   ((C5_required_marker [] [("!a", .str "number"), ("b", .str "string")]
      "" (SDVal.token "") "!a" (.str "number")).2.2.2.2 (by simp) (by decide)
      (Or.inl ⟨"number", rfl⟩)).1,
   ((C5_required_marker [] [("!a", .str "number"), ("b", .str "string")]
      "" (SDVal.token "") "!a" (.str "number")).2.2.2.2 (by simp) (by decide)
      (Or.inl ⟨"number", rfl⟩)).2⟩

/-- C6: `buildTypeBoxSchema` stores each parameter's field under its name,
wrapped `t.Optional` if and only if `required` is falsy or `default` is
defined (so `required: true` with a default is still optional); a
`required: true` parameter without a default yields a non-optional field, so
validation rejects an input object missing it, while an optional field
tolerates removal of its key from any accepted input. -/
theorem C6_param_optionality (params : List Parameter) (p : Parameter)
    (hp : p ∈ params) (hnd : (params.map Parameter.name).Nodup) :
    recGet (tObjFields (buildTypeBoxSchema params)) p.name =
      some (paramField p) ∧
    (isOptionalTB (paramField p) =
      (!jsTruthyOpt p.required || p.default.isSome)) ∧
    (jsTruthyOpt p.required = true → p.default = none →
      ∀ kvs, recGet kvs p.name = none →
        tbCheck (buildTypeBoxSchema params) (.obj kvs) = false) ∧
    (isOptionalTB (paramField p) = true →
      ∀ kvs, tbCheck (buildTypeBoxSchema params) (.obj kvs) = true →
        tbCheck (buildTypeBoxSchema params) (.obj (recDelete kvs p.name)) =
          true) := by
  have hmk : ((params.map (fun q => (q.name, paramField q))).map
      Prod.fst).Nodup := by
    simpa [List.map_map, Function.comp] using hnd
  have hb : buildTypeBoxSchema params =
      .tObj (params.map (fun q => (q.name, paramField q))) none := by
    unfold buildTypeBoxSchema
    rw [foldRecord_eq_append _ _ hmk (by intro a ha; simp at ha)]
    simp
  have hmem2 : (p.name, paramField p) ∈
      params.map (fun q => (q.name, paramField q)) :=
    List.mem_map.mpr ⟨p, hp, rfl⟩
  refine ⟨?_, isOptionalTB_paramField p, ?_, ?_⟩
  · rw [hb]
    exact recGet_of_mem_nodup _ _ _ hmk hmem2
  · intro hreq hdef kvs hget
    rw [hb]
    rw [show tbCheck (.tObj (params.map (fun q => (q.name, paramField q)))
        none) (.obj kvs) =
        tbCheckFields (params.map (fun q => (q.name, paramField q))) kvs
      from by simp [tbCheck]]
    cases hc : tbCheckFields (params.map (fun q => (q.name, paramField q))) kvs
    · rfl
    · exfalso
      have hall := (tbCheckFields_eq_all _ _).mp hc
      have hthis := hall (p.name, paramField p) hmem2
      rw [hget] at hthis
      rw [show isOptionalTB (paramField p) =
          (!jsTruthyOpt p.required || p.default.isSome)
        from isOptionalTB_paramField p, hreq, hdef] at hthis
      simp at hthis
  · intro hopt kvs hcheck
    rw [hb] at hcheck ⊢
    rw [show tbCheck (.tObj (params.map (fun q => (q.name, paramField q)))
        none) (.obj kvs) =
        tbCheckFields (params.map (fun q => (q.name, paramField q))) kvs
      from by simp [tbCheck]] at hcheck
    rw [show tbCheck (.tObj (params.map (fun q => (q.name, paramField q)))
        none) (.obj (recDelete kvs p.name)) =
        tbCheckFields (params.map (fun q => (q.name, paramField q)))
          (recDelete kvs p.name)
      from by simp [tbCheck]]
    rw [tbCheckFields_eq_all]
    intro e he
    by_cases hek : e.1 = p.name
    · have he2 : e.2 = paramField p := by
        refine snd_eq_of_mem_nodup_keys _ p.name e.2 (paramField p) hmk ?_ hmem2
        rw [← hek]
        exact he
      rw [hek, recGet_recDelete_self, he2]
      exact hopt
    · rw [recGet_recDelete_ne _ _ _ (fun hh => hek hh)]
      exact (tbCheckFields_eq_all _ _).mp hcheck e he

/-- Witness for C6: `b` has `required: true` AND a default, so it is still
optional; `a` has `required: true` and no default, so an object missing
`"a"` is rejected. -/
theorem C6_param_optionality_witness :
    recGet (tObjFields (buildTypeBoxSchema
        [⟨"a", "query", "string", none, some true, none⟩,
         ⟨"b", "query", "number", none, some true, some (.num 1)⟩])) "b" =
      some (paramField ⟨"b", "query", "number", none, some true,
        some (.num 1)⟩) ∧
    isOptionalTB (paramField ⟨"b", "query", "number", none, some true,
      some (.num 1)⟩) = true ∧
    tbCheck (buildTypeBoxSchema
        [⟨"a", "query", "string", none, some true, none⟩,
         ⟨"b", "query", "number", none, some true, some (.num 1)⟩])
      (.obj [("b", .num 2)]) = false :=
  ⟨(C6_param_optionality _ ⟨"b", "query", "number", none, some true,
      some (.num 1)⟩ (by simp) (by decide)).1,
   (C6_param_optionality
      [⟨"a", "query", "string", none, some true, none⟩,
       ⟨"b", "query", "number", none, some true, some (.num 1)⟩]
      ⟨"b", "query", "number", none, some true, some (.num 1)⟩
      (by simp) (by decide)).2.1,
   (C6_param_optionality _ ⟨"a", "query", "string", none, some true, none⟩
      (by simp) (by decide)).2.2.1 rfl rfl [("b", .num 2)] rfl⟩

theorem filter_loc_comm (ps : List Parameter) (loc : String)
    (hloc : loc ≠ "cookie") :
    (ps.filter (fun (p : Parameter) => p.«in» ≠ "cookie")).filter
        (fun (p : Parameter) => p.«in» = loc) =
      ps.filter (fun (p : Parameter) => p.«in» = loc) := by
  induction ps with
  | nil => rfl
  | cons p rest ih =>
    rw [List.filter_cons]
    by_cases hc : p.«in» = "cookie"
    · have h : p.«in» ≠ loc := by
        rw [hc]
        exact Ne.symm hloc
      rw [if_neg (by simp [hc]), List.filter_cons, if_neg (by simp [h])]
      exact ih
    · rw [if_pos (by simp [hc]), List.filter_cons, List.filter_cons]
      by_cases h : p.«in» = loc
      · rw [if_pos (by simp [h]), if_pos (by simp [h]), ih]
      · rw [if_neg (by simp [h]), if_neg (by simp [h])]
        exact ih

/-- C10: a parameter located in `"cookie"` contributes nothing to the
compiled route schema — compiling with the cookie-located parameters removed
yields the identical schema, and a route whose parameters are all
cookie-located gets no query, path, or header validation object. -/
theorem C10_cookie_discarded (input : DocumentedRouteInput) :
    buildRouteSchema input =
      buildRouteSchema { input with
        params := input.params.map
          (fun ps => ps.filter (fun (p : Parameter) => p.«in» ≠ "cookie")) } ∧
    (∀ ps, input.params = some ps →
      (∀ p ∈ ps, Parameter.«in» p = "cookie") →
      (buildRouteSchema input).query = none ∧
      (buildRouteSchema input).params = none ∧
      (buildRouteSchema input).headers = none) := by
  constructor
  · cases hin : input.params with
    | none => simp [buildRouteSchema, hin]
    | some ps =>
      simp only [buildRouteSchema, hin, Option.map_some']
      rw [filter_loc_comm ps "query" (by decide),
        filter_loc_comm ps "path" (by decide),
        filter_loc_comm ps "header" (by decide)]
  · intro ps hin hall
    have hq : ps.filter (fun (p : Parameter) => p.«in» = "query") = [] := by
      rw [List.filter_eq_nil_iff]
      intro p hp
      simp [hall p hp]
    have hpa : ps.filter (fun (p : Parameter) => p.«in» = "path") = [] := by
      rw [List.filter_eq_nil_iff]
      intro p hp
      simp [hall p hp]
    have hh : ps.filter (fun (p : Parameter) => p.«in» = "header") = [] := by
      rw [List.filter_eq_nil_iff]
      intro p hp
      simp [hall p hp]
    refine ⟨?_, ?_, ?_⟩ <;> simp [buildRouteSchema, hin, hq, hpa, hh]

/-- Witness for C10: a route whose only parameter is cookie-located compiles
with no query, path, or header validation. -/
theorem C10_cookie_discarded_witness :
    (buildRouteSchema ⟨"GET", "/c", none, none, none, fun _ => .ret .undef,
        some [⟨"sid", "cookie", "string", none, some true, none⟩],
        none, none, none, none⟩).query = none ∧
    (buildRouteSchema ⟨"GET", "/c", none, none, none, fun _ => .ret .undef,
        some [⟨"sid", "cookie", "string", none, some true, none⟩],
        none, none, none, none⟩).params = none ∧
    (buildRouteSchema ⟨"GET", "/c", none, none, none, fun _ => .ret .undef,
        some [⟨"sid", "cookie", "string", none, some true, none⟩],
        none, none, none, none⟩).headers = none :=
  (C10_cookie_discarded ⟨"GET", "/c", none, none, none, fun _ => .ret .undef,
      some [⟨"sid", "cookie", "string", none, some true, none⟩],
      none, none, none, none⟩).2
    [⟨"sid", "cookie", "string", none, some true, none⟩] rfl
    (by intro p hp; simp at hp; rw [hp])

/-- C8: the validation-path conversion is idempotent — a value that is
already a compiled validation schema (the capability probe `isTypeBoxSchema`
holds of it) is returned unchanged, so re-feeding any conversion output
(itself such a schema value) is a no-op. -/
theorem C8_idempotent (d : JSVal) (s : TBox) :
    convertSchemaToTypeBox (.tbox (convertSchemaToTypeBox d)) =
      convertSchemaToTypeBox d ∧
    isTypeBoxSchema (.tbox s) = true ∧
    convertSchemaToTypeBox (.tbox s) = s := by
  refine ⟨?_, rfl, ?_⟩ <;> simp [convertSchemaToTypeBox]

/-- C9: the registered full path is the concatenation `basePath + path` with
each double slash collapsed to a single slash; in particular `"/"` +
`"/users"` gives `"/users"` and `"/api"` + `"/users/:id"` gives
`"/api/users/:id"`. -/
theorem C9_path_resolution (basePath path : String) :
    resolveFullPath basePath path = specResolvedPath basePath path ∧
    resolveFullPath "/" "/users" = "/users" ∧
    resolveFullPath "/api" "/users/:id" = "/api/users/:id" :=
  ⟨rfl, by decide, by decide⟩

end NoteLink
